import Mathlib

/-!
Verification of the camera geometry library (src/src/cinder/Camera.cpp).

The C++ code is shallowly embedded over exact reals: every float becomes a
real number, every mutating member function becomes a function from camera
state to camera state, and the lazy matrix caches become explicit Boolean
flags carried in the state.  Vendored linear-algebra operations (glm) and
small math helpers from headers that are not part of the supplied source
are modelled from the spec, as noted in their doc comments.
-/

namespace Cinder

noncomputable section

/-- A 2-component vector (glm vec2), used for the lens shift. -/
structure Vec2 where
  x : ℝ
  y : ℝ

/-- A 3-component vector (glm vec3) over exact reals. -/
structure Vec3 where
  x : ℝ
  y : ℝ
  z : ℝ

/-- A 4-component vector (glm vec4) over exact reals. -/
structure Vec4 where
  x : ℝ
  y : ℝ
  z : ℝ
  w : ℝ

/-- A quaternion (glm quat): w is the scalar part, (x,y,z) the vector part. -/
structure Quat where
  w : ℝ
  x : ℝ
  y : ℝ
  z : ℝ

instance : Add Vec3 := ⟨fun a b => ⟨a.x + b.x, a.y + b.y, a.z + b.z⟩⟩
instance : Sub Vec3 := ⟨fun a b => ⟨a.x - b.x, a.y - b.y, a.z - b.z⟩⟩
instance : Neg Vec3 := ⟨fun a => ⟨-a.x, -a.y, -a.z⟩⟩
instance : SMul ℝ Vec3 := ⟨fun k a => ⟨k * a.x, k * a.y, k * a.z⟩⟩

/-- Modelled from the spec: the vendored dot product on 3-vectors. -/
def dot (a b : Vec3) : ℝ := a.x * b.x + a.y * b.y + a.z * b.z

/-- Modelled from the spec: the vendored cross product on 3-vectors. -/
def cross (a b : Vec3) : Vec3 :=
  ⟨a.y * b.z - a.z * b.y, a.z * b.x - a.x * b.z, a.x * b.y - a.y * b.x⟩

/-- Modelled from the spec: the vendored Euclidean length of a 3-vector. -/
def Vec3.length (a : Vec3) : ℝ := Real.sqrt (dot a a)

/-- Modelled from the spec: the vendored normalize on 3-vectors,
v / length(v) (junk value for the zero vector, as with floats). -/
def normalize (a : Vec3) : Vec3 := (1 / Vec3.length a) • a

/-- Modelled from the spec: the vendored quaternion-vector rotation
(glm rotate(q, v) = q * v), computed as
v + 2 (w (qv x v) + qv x (qv x v)) with qv the vector part of q. -/
def quatRotate (q : Quat) (v : Vec3) : Vec3 :=
  let qv : Vec3 := ⟨q.x, q.y, q.z⟩
  let uv := cross qv v
  let uuv := cross qv uv
  v + (2 : ℝ) • (q.w • uv + uuv)

/-- Modelled from the spec: the vendored quaternion normalize; returns the
identity quaternion when the length is not positive, as glm does. -/
def quatNormalize (q : Quat) : Quat :=
  let len := Real.sqrt (q.w * q.w + q.x * q.x + q.y * q.y + q.z * q.z)
  if len ≤ 0 then ⟨1, 0, 0, 0⟩
  else ⟨q.w / len, q.x / len, q.y / len, q.z / len⟩

/-- Modelled from the spec: the vendored construction of the (minimal-arc)
rotation quaternion mapping the unit vector orig onto the unit vector dest
(glm gtx rotation(orig, dest)).  The float epsilon guards around the
parallel and antiparallel cases are rendered as exact comparisons. -/
def glmRotationBetween (orig dest : Vec3) : Quat :=
  let cosTheta := dot orig dest
  if 1 ≤ cosTheta then ⟨1, 0, 0, 0⟩
  else if cosTheta ≤ -1 then
    let ax0 := cross ⟨0, 0, 1⟩ orig
    let ax1 := if dot ax0 ax0 ≤ 0 then cross ⟨1, 0, 0⟩ orig else ax0
    let ax := normalize ax1
    ⟨0, ax.x, ax.y, ax.z⟩
  else
    let ax := cross orig dest
    let s := Real.sqrt ((1 + cosTheta) * 2)
    ⟨s * 0.5, ax.x * (1 / s), ax.y * (1 / s), ax.z * (1 / s)⟩

/-- A column-major 4x4 matrix; field mij is the C++ entry m[i][j]
(column i, row j), matching the glm indexing used throughout Camera.cpp. -/
structure Mat4 where
  m00 : ℝ
  m01 : ℝ
  m02 : ℝ
  m03 : ℝ
  m10 : ℝ
  m11 : ℝ
  m12 : ℝ
  m13 : ℝ
  m20 : ℝ
  m21 : ℝ
  m22 : ℝ
  m23 : ℝ
  m30 : ℝ
  m31 : ℝ
  m32 : ℝ
  m33 : ℝ

/-- Modelled from the spec: the vendored matrix-vector product; row r of the
result is the sum over columns c of m[c][r] * v[c]. -/
def Mat4.mulVec (m : Mat4) (v : Vec4) : Vec4 :=
  ⟨m.m00 * v.x + m.m10 * v.y + m.m20 * v.z + m.m30 * v.w,
   m.m01 * v.x + m.m11 * v.y + m.m21 * v.z + m.m31 * v.w,
   m.m02 * v.x + m.m12 * v.y + m.m22 * v.z + m.m32 * v.w,
   m.m03 * v.x + m.m13 * v.y + m.m23 * v.z + m.m33 * v.w⟩

/-- Modelled from the spec: cinder toRadians, x * pi / 180. -/
def toRadians (x : ℝ) : ℝ := x * Real.pi / 180

/-- Modelled from the spec: cinder toDegrees, x * 180 / pi. -/
def toDegrees (x : ℝ) : ℝ := x * 180 / Real.pi

/-- Modelled from the spec: cinder lerp, a + (b - a) * t. -/
def lerp (a b t : ℝ) : ℝ := a + (b - a) * t

/-- A ray (origin plus direction), as constructed by generateRay. -/
structure Ray where
  origin : Vec3
  dir : Vec3

/-- A bounding sphere (center plus radius), as consumed by calcFraming. -/
structure Sphere where
  center : Vec3
  radius : ℝ

/-- The camera state.  The pose, lens, frustum and cache fields of the C++
Camera base class, flattened together with CameraPersp's mLensShift (the
inheritance hierarchy is embedded as one record; the stereo camera adds its
own record below).  mAspect embeds the source field mAspectRatio. -/
structure Camera where
  mEyePoint : Vec3
  mViewDirection : Vec3
  mOrientation : Quat
  mWorldUp : Vec3
  mCenterOfInterest : ℝ
  mFov : ℝ
  mAspect : ℝ
  mNearClip : ℝ
  mFarClip : ℝ
  mFrustumLeft : ℝ
  mFrustumRight : ℝ
  mFrustumTop : ℝ
  mFrustumBottom : ℝ
  mLensShift : Vec2
  mU : Vec3
  mV : Vec3
  mW : Vec3
  mViewMatrix : Mat4
  mProjectionMatrix : Mat4
  mInverseProjectionMatrix : Mat4
  mModelViewCached : Bool
  mProjectionCached : Bool
  mInverseModelViewCached : Bool

/-- Camera::setEyePoint (Camera.cpp lines 41-45). -/
def Camera.setEyePoint (c : Camera) (aEyePoint : Vec3) : Camera :=
  { c with mEyePoint := aEyePoint, mModelViewCached := false }

/-- Camera::setViewDirection (Camera.cpp lines 53-58): normalizes and stores
the direction, then stores the rotation mapping it onto (0,0,-1). -/
def Camera.setViewDirection (c : Camera) (aViewDirection : Vec3) : Camera :=
  let vd := normalize aViewDirection
  { c with mViewDirection := vd,
           mOrientation := glmRotationBetween vd ⟨0, 0, -1⟩,
           mModelViewCached := false }

/-- Camera::setOrientation (Camera.cpp lines 60-65): normalizes and stores
the quaternion, then derives the view direction by rotating (0,0,-1). -/
def Camera.setOrientation (c : Camera) (aOrientation : Quat) : Camera :=
  let o := quatNormalize aOrientation
  { c with mOrientation := o,
           mViewDirection := quatRotate o ⟨0, 0, -1⟩,
           mModelViewCached := false }

/-- Camera::setWorldUp (Camera.cpp lines 73-78).  The composite
glm::toQuat(alignZAxisWithTarget(-viewDirection, worldUp)) lives in headers
outside the supplied source and is passed in as the parameter alignQ. -/
def Camera.setWorldUp (c : Camera) (alignQ : Vec3 → Vec3 → Quat)
    (aWorldUp : Vec3) : Camera :=
  let up := normalize aWorldUp
  { c with mWorldUp := up,
           mOrientation := alignQ (-c.mViewDirection) up,
           mModelViewCached := false }

/-- Camera::lookAt(target) (Camera.cpp lines 80-85); alignQ as in setWorldUp. -/
def Camera.lookAt (c : Camera) (alignQ : Vec3 → Vec3 → Quat)
    (target : Vec3) : Camera :=
  let vd := normalize (target - c.mEyePoint)
  { c with mViewDirection := vd,
           mOrientation := alignQ (-vd) c.mWorldUp,
           mModelViewCached := false }

/-- Camera::lookAt(eyePoint, target) (Camera.cpp lines 87-93). -/
def Camera.lookAt2 (c : Camera) (alignQ : Vec3 → Vec3 → Quat)
    (aEyePoint target : Vec3) : Camera :=
  let vd := normalize (target - aEyePoint)
  { c with mEyePoint := aEyePoint,
           mViewDirection := vd,
           mOrientation := alignQ (-vd) c.mWorldUp,
           mModelViewCached := false }

/-- Camera::lookAt(eyePoint, target, worldUp) (Camera.cpp lines 95-102). -/
def Camera.lookAt3 (c : Camera) (alignQ : Vec3 → Vec3 → Quat)
    (aEyePoint target aWorldUp : Vec3) : Camera :=
  let up := normalize aWorldUp
  let vd := normalize (target - aEyePoint)
  { c with mEyePoint := aEyePoint,
           mWorldUp := up,
           mViewDirection := vd,
           mOrientation := alignQ (-vd) up,
           mModelViewCached := false }

/-- Camera::calcViewMatrix (Camera.cpp lines 197-213): derives the basis
U, V, W and the translation d, and writes the view matrix columns. -/
def Camera.calcViewMatrix (c : Camera) : Camera :=
  let w := -(normalize c.mViewDirection)
  let u := quatRotate c.mOrientation ⟨1, 0, 0⟩
  let v := quatRotate c.mOrientation ⟨0, 1, 0⟩
  let d : Vec3 := ⟨-(dot c.mEyePoint u), -(dot c.mEyePoint v), -(dot c.mEyePoint w)⟩
  { c with mW := w, mU := u, mV := v,
           mViewMatrix :=
             { m00 := u.x, m10 := u.y, m20 := u.z, m30 := d.x,
               m01 := v.x, m11 := v.y, m21 := v.z, m31 := d.y,
               m02 := w.x, m12 := w.y, m22 := w.z, m32 := d.z,
               m03 := 0, m13 := 0, m23 := 0, m33 := 1 },
           mModelViewCached := true,
           mInverseModelViewCached := false }

/-- Camera::calcMatrices (Camera.cpp lines 191-195): ensures both caches are
valid, with the virtual calcProjection passed as the parameter cp. -/
def Camera.calcMatrices (cp : Camera → Camera) (c : Camera) : Camera :=
  let c1 := if c.mModelViewCached then c else Camera.calcViewMatrix c
  if c1.mProjectionCached then c1 else cp c1

/-- CameraPersp::setPerspective (Camera.cpp lines 267-275): stores the lens
parameters and invalidates only the projection cache. -/
def CameraPersp.setPerspective (c : Camera)
    (verticalFovDegrees aspect nearPlane farPlane : ℝ) : Camera :=
  { c with mFov := verticalFovDegrees,
           mAspect := aspect,
           mNearClip := nearPlane,
           mFarClip := farPlane,
           mProjectionCached := false }

/-- CameraPersp::setLensShift (Camera.cpp lines 340-346). -/
def CameraPersp.setLensShift (c : Camera) (horizontal vertical : ℝ) : Camera :=
  { c with mLensShift := ⟨horizontal, vertical⟩, mProjectionCached := false }

/-- CameraPersp::calcProjection (Camera.cpp lines 277-338): derives the
symmetric frustum from the vertical FOV, redistributes it by the lens shift,
and writes the projection matrix and its analytic inverse. -/
def CameraPersp.calcProjection (c : Camera) : Camera :=
  let t0 := c.mNearClip * Real.tan (Real.pi / 180 * c.mFov * 0.5)
  let b0 := -t0
  let r0 := t0 * c.mAspect
  let l0 := -r0
  let ft := if c.mLensShift.y = 0 then t0 else lerp 0 (2 * t0) (0.5 + 0.5 * c.mLensShift.y)
  let fb := if c.mLensShift.y = 0 then b0 else lerp (2 * b0) 0 (0.5 + 0.5 * c.mLensShift.y)
  let fr := if c.mLensShift.x = 0 then r0 else lerp (2 * r0) 0 (0.5 - 0.5 * c.mLensShift.x)
  let fl := if c.mLensShift.x = 0 then l0 else lerp 0 (2 * l0) (0.5 - 0.5 * c.mLensShift.x)
  { c with
    mFrustumTop := ft, mFrustumBottom := fb, mFrustumRight := fr, mFrustumLeft := fl,
    mProjectionMatrix :=
      { m00 := 2 * c.mNearClip / (fr - fl), m10 := 0,
        m20 := (fr + fl) / (fr - fl), m30 := 0,
        m01 := 0, m11 := 2 * c.mNearClip / (ft - fb),
        m21 := (ft + fb) / (ft - fb), m31 := 0,
        m02 := 0, m12 := 0,
        m22 := -(c.mFarClip + c.mNearClip) / (c.mFarClip - c.mNearClip),
        m32 := -2 * c.mFarClip * c.mNearClip / (c.mFarClip - c.mNearClip),
        m03 := 0, m13 := 0, m23 := -1, m33 := 0 },
    mInverseProjectionMatrix :=
      { m00 := (fr - fl) / (2 * c.mNearClip), m10 := 0,
        m20 := 0, m30 := (fr + fl) / (2 * c.mNearClip),
        m01 := 0, m11 := (ft - fb) / (2 * c.mNearClip),
        m21 := 0, m31 := (ft + fb) / (2 * c.mNearClip),
        m02 := 0, m12 := 0, m22 := 0, m32 := -1,
        m03 := 0, m13 := 0,
        m23 := -(c.mFarClip - c.mNearClip) / (2 * c.mFarClip * c.mNearClip),
        m33 := (c.mFarClip + c.mNearClip) / (2 * c.mFarClip * c.mNearClip) },
    mProjectionCached := true }

/-- CameraOrtho::setOrtho (Camera.cpp lines 382-392): stores the box frustum
and clip planes and invalidates only the projection cache. -/
def CameraOrtho.setOrtho (c : Camera)
    (left right bottom top nearPlane farPlane : ℝ) : Camera :=
  { c with mFrustumLeft := left, mFrustumRight := right,
           mFrustumTop := top, mFrustumBottom := bottom,
           mNearClip := nearPlane, mFarClip := farPlane,
           mProjectionCached := false }

/-- CameraOrtho::calcProjection (Camera.cpp lines 394-439): the standard
orthographic matrix and its analytic inverse; reads the stored frustum
fields and writes only the matrices and the cache flag. -/
def CameraOrtho.calcProjection (c : Camera) : Camera :=
  { c with
    mProjectionMatrix :=
      { m00 := 2 / (c.mFrustumRight - c.mFrustumLeft), m10 := 0, m20 := 0,
        m30 := -(c.mFrustumRight + c.mFrustumLeft) / (c.mFrustumRight - c.mFrustumLeft),
        m01 := 0, m11 := 2 / (c.mFrustumTop - c.mFrustumBottom), m21 := 0,
        m31 := -(c.mFrustumTop + c.mFrustumBottom) / (c.mFrustumTop - c.mFrustumBottom),
        m02 := 0, m12 := 0, m22 := -2 / (c.mFarClip - c.mNearClip),
        m32 := -(c.mFarClip + c.mNearClip) / (c.mFarClip - c.mNearClip),
        m03 := 0, m13 := 0, m23 := 0, m33 := 1 },
    mInverseProjectionMatrix :=
      { m00 := (c.mFrustumRight - c.mFrustumLeft) * 0.5, m10 := 0, m20 := 0,
        m30 := (c.mFrustumRight + c.mFrustumLeft) * 0.5,
        m01 := 0, m11 := (c.mFrustumTop - c.mFrustumBottom) * 0.5, m21 := 0,
        m31 := (c.mFrustumTop + c.mFrustumBottom) * 0.5,
        m02 := 0, m12 := 0, m22 := (c.mFarClip - c.mNearClip) * 0.5,
        m32 := (c.mNearClip + c.mFarClip) * 0.5,
        m03 := 0, m13 := 0, m23 := 0, m33 := 1 },
    mProjectionCached := true }

/-- The stereo camera state: the inherited CameraPersp state plus eye
separation, convergence, the stereo/eye selectors and the left/right
matrix caches (CameraStereo in Camera.h). -/
structure CameraStereo where
  cam : Camera
  mEyeSeparation : ℝ
  mConvergence : ℝ
  mIsStereo : Bool
  mIsLeft : Bool
  mViewMatrixLeft : Mat4
  mViewMatrixRight : Mat4
  mProjectionMatrixLeft : Mat4
  mProjectionMatrixRight : Mat4
  mInverseProjectionMatrixLeft : Mat4
  mInverseProjectionMatrixRight : Mat4

/-- CameraStereo::getEyePointShifted (Camera.cpp lines 444-453). -/
def CameraStereo.getEyePointShifted (s : CameraStereo) : Vec3 :=
  if !s.mIsStereo then s.cam.mEyePoint
  else if s.mIsLeft then
    s.cam.mEyePoint - (0.5 * s.mEyeSeparation) • quatRotate s.cam.mOrientation ⟨1, 0, 0⟩
  else
    s.cam.mEyePoint + (0.5 * s.mEyeSeparation) • quatRotate s.cam.mOrientation ⟨1, 0, 0⟩

/-- CameraStereo::calcViewMatrix (Camera.cpp lines 535-557): the base view
matrix first, then the left/right matrices differing in the translation
column only. -/
def CameraStereo.calcViewMatrix (s : CameraStereo) : CameraStereo :=
  let c := Camera.calcViewMatrix s.cam
  let eyeL := c.mEyePoint - (0.5 * s.mEyeSeparation) • quatRotate c.mOrientation ⟨1, 0, 0⟩
  let dL : Vec3 := ⟨-(dot eyeL c.mU), -(dot eyeL c.mV), -(dot eyeL c.mW)⟩
  let eyeR := c.mEyePoint + (0.5 * s.mEyeSeparation) • quatRotate c.mOrientation ⟨1, 0, 0⟩
  let dR : Vec3 := ⟨-(dot eyeR c.mU), -(dot eyeR c.mV), -(dot eyeR c.mW)⟩
  { s with cam := c,
           mViewMatrixLeft := { c.mViewMatrix with m30 := dL.x, m31 := dL.y, m32 := dL.z },
           mViewMatrixRight := { c.mViewMatrix with m30 := dR.x, m31 := dR.y, m32 := dR.z } }

/-- CameraStereo::calcProjection (Camera.cpp lines 569-591): the base
perspective matrices first, copied into the left/right versions, then the
four off-axis entries perturbed. -/
def CameraStereo.calcProjection (s : CameraStereo) : CameraStereo :=
  let c := CameraPersp.calcProjection s.cam
  { s with
    cam := c,
    mProjectionMatrixLeft := c.mProjectionMatrix,
    mInverseProjectionMatrixLeft :=
      { c.mInverseProjectionMatrix with
        m20 := (c.mFrustumRight + c.mFrustumLeft
                 + s.mEyeSeparation * (c.mNearClip / s.mConvergence))
               / (c.mFrustumRight - c.mFrustumLeft),
        m30 := (c.mFrustumRight + c.mFrustumLeft
                 + s.mEyeSeparation * (c.mNearClip / s.mConvergence))
               / (2 * c.mNearClip) },
    mProjectionMatrixRight :=
      { c.mProjectionMatrix with
        m20 := (c.mFrustumRight + c.mFrustumLeft
                 - s.mEyeSeparation * (c.mNearClip / s.mConvergence))
               / (c.mFrustumRight - c.mFrustumLeft),
        m30 := (c.mFrustumRight + c.mFrustumLeft
                 - s.mEyeSeparation * (c.mNearClip / s.mConvergence))
               / (2 * c.mNearClip) },
    mInverseProjectionMatrixRight := c.mInverseProjectionMatrix }

/-- The four world-space corners of a clip plane, in the order the C++
queries return them through their out-parameters. -/
structure ClipCoords where
  topLeft : Vec3
  topRight : Vec3
  bottomLeft : Vec3
  bottomRight : Vec3

/-- Camera::getNearClipCoordinates (Camera.cpp lines 104-114): ensures the
caches (virtual calcProjection passed as cp), then offsets the eye by the
near clip distance along the view direction and the frustum extents along
V and U. -/
def Camera.getNearClipCoordinates (cp : Camera → Camera) (c : Camera) : ClipCoords :=
  let k := Camera.calcMatrices cp c
  let vd := normalize k.mViewDirection
  ⟨k.mEyePoint + k.mNearClip • vd + k.mFrustumTop • k.mV + k.mFrustumLeft • k.mU,
   k.mEyePoint + k.mNearClip • vd + k.mFrustumTop • k.mV + k.mFrustumRight • k.mU,
   k.mEyePoint + k.mNearClip • vd + k.mFrustumBottom • k.mV + k.mFrustumLeft • k.mU,
   k.mEyePoint + k.mNearClip • vd + k.mFrustumBottom • k.mV + k.mFrustumRight • k.mU⟩

/-- Camera::getFarClipCoordinates (Camera.cpp lines 116-127): as the near
query but at the far clip distance, with the frustum extents scaled by
farClip / nearClip. -/
def Camera.getFarClipCoordinates (cp : Camera → Camera) (c : Camera) : ClipCoords :=
  let k := Camera.calcMatrices cp c
  let vd := normalize k.mViewDirection
  let rt := k.mFarClip / k.mNearClip
  ⟨k.mEyePoint + k.mFarClip • vd + (rt * k.mFrustumTop) • k.mV + (rt * k.mFrustumLeft) • k.mU,
   k.mEyePoint + k.mFarClip • vd + (rt * k.mFrustumTop) • k.mV + (rt * k.mFrustumRight) • k.mU,
   k.mEyePoint + k.mFarClip • vd + (rt * k.mFrustumBottom) • k.mV + (rt * k.mFrustumLeft) • k.mU,
   k.mEyePoint + k.mFarClip • vd + (rt * k.mFrustumBottom) • k.mV + (rt * k.mFrustumRight) • k.mU⟩

/-- Camera::generateRay (Camera.cpp lines 141-149): ensures the caches, then
casts a ray from the (unshifted) eye point through the image-plane point at
normalized coordinates (uPos, vPos). -/
def Camera.generateRay (cp : Camera → Camera) (c : Camera)
    (uPos vPos imagePlaneAspect : ℝ) : Ray :=
  let k := Camera.calcMatrices cp c
  let s := (uPos - 0.5) * imagePlaneAspect
  let t := vPos - 0.5
  let viewDistance := imagePlaneAspect / |k.mFrustumRight - k.mFrustumLeft| * k.mNearClip
  ⟨k.mEyePoint, normalize (s • k.mU + t • k.mV - viewDistance • k.mW)⟩

/-- Modelled from the spec: Camera::getViewMatrix (declared in the header,
outside the supplied source) — ensures the view cache is valid, then
returns the stored view matrix. -/
def Camera.getViewMatrix (c : Camera) : Mat4 :=
  if c.mModelViewCached then c.mViewMatrix else (Camera.calcViewMatrix c).mViewMatrix

/-- Modelled from the spec: Camera::getProjectionMatrix (declared in the
header, outside the supplied source) — ensures the projection cache is
valid via the virtual calcProjection cp, then returns the stored matrix. -/
def Camera.getProjectionMatrix (cp : Camera → Camera) (c : Camera) : Mat4 :=
  if c.mProjectionCached then c.mProjectionMatrix else (cp c).mProjectionMatrix

/-- Modelled from the spec: CameraPersp::getFovHorizontal (declared in the
header, outside the supplied source) — the horizontal field of view in
degrees, derived from the vertical FOV and the aspect ratio. -/
def CameraPersp.getFovHorizontal (c : Camera) : ℝ :=
  toDegrees (2 * Real.arctan (Real.tan (toRadians c.mFov * 0.5) * c.mAspect))

/-- CameraPersp::calcFraming (Camera.cpp lines 348-355): a copy of the
camera pulled back along its view direction so the sphere fills the FOV. -/
def CameraPersp.calcFraming (c : Camera) (sp : Sphere) : Camera :=
  let xD := sp.radius / Real.sin (toRadians (CameraPersp.getFovHorizontal c * 0.5))
  let yD := sp.radius / Real.sin (toRadians (c.mFov * 0.5))
  Camera.setEyePoint c (sp.center - (max xD yD) • c.mViewDirection)

/-- Camera::calcMatrices as inherited by CameraStereo: the virtual
calcViewMatrix and calcProjection resolve to the stereo overrides, which
read and write the flags of the embedded base state. -/
def CameraStereo.calcMatrices (s : CameraStereo) : CameraStereo :=
  let s1 := if s.cam.mModelViewCached then s else CameraStereo.calcViewMatrix s
  if s1.cam.mProjectionCached then s1 else CameraStereo.calcProjection s1

/-- Camera::generateRay as inherited by CameraStereo (no stereo override
exists in the source): the ray originates at the embedded base state's
unshifted eye point. -/
def CameraStereo.generateRay (s : CameraStereo)
    (uPos vPos imagePlaneAspect : ℝ) : Ray :=
  let k := (CameraStereo.calcMatrices s).cam
  let sc := (uPos - 0.5) * imagePlaneAspect
  let t := vPos - 0.5
  let viewDistance := imagePlaneAspect / |k.mFrustumRight - k.mFrustumLeft| * k.mNearClip
  ⟨k.mEyePoint, normalize (sc • k.mU + t • k.mV - viewDistance • k.mW)⟩

/-- The all-zero matrix, used to populate concrete camera states. -/
def mat0 : Mat4 := ⟨0, 0, 0, 0, 0, 0, 0, 0, 0, 0, 0, 0, 0, 0, 0, 0⟩

/-- A concrete camera state used by the concrete-input theorems: looking
down -z from the origin, both matrix caches valid. -/
def cam0 : Camera :=
  { mEyePoint := ⟨0, 0, 0⟩
    mViewDirection := ⟨0, 0, -1⟩
    mOrientation := ⟨1, 0, 0, 0⟩
    mWorldUp := ⟨0, 1, 0⟩
    mCenterOfInterest := 1
    mFov := 35
    mAspect := 1
    mNearClip := 1
    mFarClip := 10
    mFrustumLeft := -1
    mFrustumRight := 1
    mFrustumTop := 1
    mFrustumBottom := -1
    mLensShift := ⟨0, 0⟩
    mU := ⟨1, 0, 0⟩
    mV := ⟨0, 1, 0⟩
    mW := ⟨0, 0, 1⟩
    mViewMatrix := mat0
    mProjectionMatrix := mat0
    mInverseProjectionMatrix := mat0
    mModelViewCached := true
    mProjectionCached := true
    mInverseModelViewCached := false }

/-- A concrete camera like cam0 but with a 90-degree FOV, used to evaluate
the framing distance at an angle whose sine is exactly computable. -/
def cam90 : Camera := { cam0 with mFov := 90 }

/-- A concrete unit sphere at the origin, used by the framing witness. -/
def sph1 : Sphere := ⟨⟨0, 0, 0⟩, 1⟩

/-- A concrete stereo camera in left-eye stereo mode over cam0. -/
def st0 : CameraStereo :=
  { cam := cam0
    mEyeSeparation := 1
    mConvergence := 1
    mIsStereo := true
    mIsLeft := true
    mViewMatrixLeft := mat0
    mViewMatrixRight := mat0
    mProjectionMatrixLeft := mat0
    mProjectionMatrixRight := mat0
    mInverseProjectionMatrixLeft := mat0
    mInverseProjectionMatrixRight := mat0 }

@[simp] theorem Vec3.add_x (a b : Vec3) : (a + b).x = a.x + b.x := rfl

@[simp] theorem Vec3.add_y (a b : Vec3) : (a + b).y = a.y + b.y := rfl

@[simp] theorem Vec3.add_z (a b : Vec3) : (a + b).z = a.z + b.z := rfl

@[simp] theorem Vec3.sub_x (a b : Vec3) : (a - b).x = a.x - b.x := rfl

@[simp] theorem Vec3.sub_y (a b : Vec3) : (a - b).y = a.y - b.y := rfl

@[simp] theorem Vec3.sub_z (a b : Vec3) : (a - b).z = a.z - b.z := rfl

@[simp] theorem Vec3.neg_x (a : Vec3) : (-a).x = -a.x := rfl

@[simp] theorem Vec3.neg_y (a : Vec3) : (-a).y = -a.y := rfl

@[simp] theorem Vec3.neg_z (a : Vec3) : (-a).z = -a.z := rfl

@[simp] theorem Vec3.smul_x (k : ℝ) (a : Vec3) : (k • a).x = k * a.x := rfl

@[simp] theorem Vec3.smul_y (k : ℝ) (a : Vec3) : (k • a).y = k * a.y := rfl

@[simp] theorem Vec3.smul_z (k : ℝ) (a : Vec3) : (k • a).z = k * a.z := rfl

theorem Vec3.eq_iff_comps {a b : Vec3} : a = b ↔ a.x = b.x ∧ a.y = b.y ∧ a.z = b.z := by
  constructor
  · rintro rfl; exact ⟨rfl, rfl, rfl⟩
  · rintro ⟨hx, hy, hz⟩; cases a; cases b; simp_all

theorem Vec4.eq_iff_comps4 {a b : Vec4} :
    a = b ↔ a.x = b.x ∧ a.y = b.y ∧ a.z = b.z ∧ a.w = b.w := by
  constructor
  · rintro rfl; exact ⟨rfl, rfl, rfl, rfl⟩
  · rintro ⟨hx, hy, hz, hw⟩; cases a; cases b; simp_all

/-- C2: for every camera state, the view matrix written by calcViewMatrix
maps the homogeneous eye point (eyePoint, 1) to the camera-space origin:
each of the first three components of the transformed point is exactly 0. -/
theorem c2_view_matrix_maps_eye_to_origin (c : Camera) :
    (Mat4.mulVec (Camera.calcViewMatrix c).mViewMatrix
        ⟨c.mEyePoint.x, c.mEyePoint.y, c.mEyePoint.z, 1⟩).x = 0 ∧
    (Mat4.mulVec (Camera.calcViewMatrix c).mViewMatrix
        ⟨c.mEyePoint.x, c.mEyePoint.y, c.mEyePoint.z, 1⟩).y = 0 ∧
    (Mat4.mulVec (Camera.calcViewMatrix c).mViewMatrix
        ⟨c.mEyePoint.x, c.mEyePoint.y, c.mEyePoint.z, 1⟩).z = 0 := by
  refine ⟨?_, ?_, ?_⟩ <;>
    simp [Camera.calcViewMatrix, Mat4.mulVec, dot] <;> ring

/-- C3: after CameraStereo::calcProjection, the left projection and the
right inverse projection equal the cyclopean (base perspective) matrices
entrywise, and the left inverse projection and right projection equal them
in every entry except m[2][0] and m[3][0], which take the stated off-axis
values (R, L, near being the recomputed cyclopean frustum values). -/
theorem c3_stereo_projection_four_entries (s : CameraStereo) :
    (CameraStereo.calcProjection s).mProjectionMatrixLeft
        = (CameraPersp.calcProjection s.cam).mProjectionMatrix ∧
    (CameraStereo.calcProjection s).mInverseProjectionMatrixRight
        = (CameraPersp.calcProjection s.cam).mInverseProjectionMatrix ∧
    (CameraStereo.calcProjection s).mInverseProjectionMatrixLeft
        = { (CameraPersp.calcProjection s.cam).mInverseProjectionMatrix with
            m20 := ((CameraPersp.calcProjection s.cam).mFrustumRight
                     + (CameraPersp.calcProjection s.cam).mFrustumLeft
                     + s.mEyeSeparation
                       * ((CameraPersp.calcProjection s.cam).mNearClip / s.mConvergence))
                   / ((CameraPersp.calcProjection s.cam).mFrustumRight
                     - (CameraPersp.calcProjection s.cam).mFrustumLeft),
            m30 := ((CameraPersp.calcProjection s.cam).mFrustumRight
                     + (CameraPersp.calcProjection s.cam).mFrustumLeft
                     + s.mEyeSeparation
                       * ((CameraPersp.calcProjection s.cam).mNearClip / s.mConvergence))
                   / (2 * (CameraPersp.calcProjection s.cam).mNearClip) } ∧
    (CameraStereo.calcProjection s).mProjectionMatrixRight
        = { (CameraPersp.calcProjection s.cam).mProjectionMatrix with
            m20 := ((CameraPersp.calcProjection s.cam).mFrustumRight
                     + (CameraPersp.calcProjection s.cam).mFrustumLeft
                     - s.mEyeSeparation
                       * ((CameraPersp.calcProjection s.cam).mNearClip / s.mConvergence))
                   / ((CameraPersp.calcProjection s.cam).mFrustumRight
                     - (CameraPersp.calcProjection s.cam).mFrustumLeft),
            m30 := ((CameraPersp.calcProjection s.cam).mFrustumRight
                     + (CameraPersp.calcProjection s.cam).mFrustumLeft
                     - s.mEyeSeparation
                       * ((CameraPersp.calcProjection s.cam).mNearClip / s.mConvergence))
                   / (2 * (CameraPersp.calcProjection s.cam).mNearClip) } :=
  ⟨rfl, rfl, rfl, rfl⟩

/-- C5: the lens shift redistributes but does not change the total frustum
extent: after CameraPersp::calcProjection, for every lens shift, FOV, aspect
ratio and near clip, top - bottom = 2 near tan(radians(fov)/2) and
right - left = 2 near tan(radians(fov)/2) * aspectRatio, the same totals as
with zero shift. -/
theorem c5_lens_shift_preserves_extent (c : Camera) :
    (CameraPersp.calcProjection c).mFrustumTop
        - (CameraPersp.calcProjection c).mFrustumBottom
      = 2 * c.mNearClip * Real.tan (toRadians c.mFov / 2) ∧
    (CameraPersp.calcProjection c).mFrustumRight
        - (CameraPersp.calcProjection c).mFrustumLeft
      = 2 * c.mNearClip * Real.tan (toRadians c.mFov / 2) * c.mAspect := by
  have harg : Real.pi / 180 * c.mFov * 0.5 = toRadians c.mFov / 2 := by
    unfold toRadians; ring
  constructor <;>
  · simp only [CameraPersp.calcProjection, harg, lerp]
    by_cases hy : c.mLensShift.y = 0 <;> by_cases hx : c.mLensShift.x = 0 <;>
      simp only [hx, hy, if_true, if_false, reduceIte] <;> ring

/-- C6: the orthographic projection built after setOrtho(L, R, B, T, n, f),
with R, L, T, B, f, n pairwise distinct as required, maps the eye-space
point (L, B, -n) to NDC (-1, -1, -1) and (R, T, -f) to NDC (1, 1, 1), the
homogeneous coordinate being exactly 1. -/
theorem c6_ortho_maps_box_corners (c : Camera) (L R B T n f : ℝ)
    (hRL : R ≠ L) (hTB : T ≠ B) (hfn : f ≠ n) :
    Mat4.mulVec (CameraOrtho.calcProjection
        (CameraOrtho.setOrtho c L R B T n f)).mProjectionMatrix
        ⟨L, B, -n, 1⟩ = ⟨-1, -1, -1, 1⟩ ∧
    Mat4.mulVec (CameraOrtho.calcProjection
        (CameraOrtho.setOrtho c L R B T n f)).mProjectionMatrix
        ⟨R, T, -f, 1⟩ = ⟨1, 1, 1, 1⟩ := by
  have h1 : R - L ≠ 0 := sub_ne_zero.mpr hRL
  have h2 : T - B ≠ 0 := sub_ne_zero.mpr hTB
  have h3 : f - n ≠ 0 := sub_ne_zero.mpr hfn
  constructor <;>
  · simp only [CameraOrtho.calcProjection, CameraOrtho.setOrtho, Mat4.mulVec,
      Vec4.eq_iff_comps4]
    refine ⟨?_, ?_, ?_, ?_⟩ <;> field_simp <;> ring

/-- Witness for C6 at the concrete box (-1, 1, -2, 2, 1, 3) on cam0. -/
theorem c6_ortho_maps_box_corners_witness :
    ((1 : ℝ) ≠ -1 ∧ (2 : ℝ) ≠ -2 ∧ (3 : ℝ) ≠ 1) ∧
    (Mat4.mulVec (CameraOrtho.calcProjection
        (CameraOrtho.setOrtho cam0 (-1) 1 (-2) 2 1 3)).mProjectionMatrix
        ⟨-1, -2, -1, 1⟩ = ⟨-1, -1, -1, 1⟩ ∧
     Mat4.mulVec (CameraOrtho.calcProjection
        (CameraOrtho.setOrtho cam0 (-1) 1 (-2) 2 1 3)).mProjectionMatrix
        ⟨1, 2, -3, 1⟩ = ⟨1, 1, 1, 1⟩) :=
  ⟨⟨by norm_num, by norm_num, by norm_num⟩,
   c6_ortho_maps_box_corners cam0 (-1) 1 (-2) 2 1 3
     (by norm_num) (by norm_num) (by norm_num)⟩

/-- C10: the orthographic frustum extents are never recomputed: after
setOrtho(L, R, B, T, n, f), running the cache machinery (which invokes
CameraOrtho::calcProjection) leaves the six stored extent fields equal to
the values passed in, and CameraOrtho::calcProjection itself reads but
never writes any of the six fields on any state. -/
theorem c10_ortho_extents_never_recomputed (c : Camera) (L R B T n f : ℝ) :
    ((Camera.calcMatrices CameraOrtho.calcProjection
        (CameraOrtho.setOrtho c L R B T n f)).mFrustumLeft = L ∧
     (Camera.calcMatrices CameraOrtho.calcProjection
        (CameraOrtho.setOrtho c L R B T n f)).mFrustumRight = R ∧
     (Camera.calcMatrices CameraOrtho.calcProjection
        (CameraOrtho.setOrtho c L R B T n f)).mFrustumBottom = B ∧
     (Camera.calcMatrices CameraOrtho.calcProjection
        (CameraOrtho.setOrtho c L R B T n f)).mFrustumTop = T ∧
     (Camera.calcMatrices CameraOrtho.calcProjection
        (CameraOrtho.setOrtho c L R B T n f)).mNearClip = n ∧
     (Camera.calcMatrices CameraOrtho.calcProjection
        (CameraOrtho.setOrtho c L R B T n f)).mFarClip = f) ∧
    ∀ d : Camera,
      (CameraOrtho.calcProjection d).mFrustumLeft = d.mFrustumLeft ∧
      (CameraOrtho.calcProjection d).mFrustumRight = d.mFrustumRight ∧
      (CameraOrtho.calcProjection d).mFrustumBottom = d.mFrustumBottom ∧
      (CameraOrtho.calcProjection d).mFrustumTop = d.mFrustumTop ∧
      (CameraOrtho.calcProjection d).mNearClip = d.mNearClip ∧
      (CameraOrtho.calcProjection d).mFarClip = d.mFarClip := by
  constructor
  · by_cases h : c.mModelViewCached <;>
      simp [Camera.calcMatrices, CameraOrtho.setOrtho, CameraOrtho.calcProjection,
        Camera.calcViewMatrix, h]
  · intro d
    simp [CameraOrtho.calcProjection]

/-- C4: caches for pose and lens are separate.  setPerspective (which
mutates only projection parameters) leaves getViewMatrix unchanged and does
not clear the view cache flag; every pose mutator (setEyePoint,
setViewDirection, setOrientation, setWorldUp and the lookAt family, for any
orientation-alignment function alignQ) leaves getProjectionMatrix unchanged
and does not clear the projection cache flag. -/
theorem c4_cache_separation (c : Camera) (fov a n fr : ℝ)
    (p d u t e1 t1 u1 : Vec3) (q : Quat) (alignQ : Vec3 → Vec3 → Quat) :
    (Camera.getViewMatrix (CameraPersp.setPerspective c fov a n fr)
        = Camera.getViewMatrix c ∧
     (CameraPersp.setPerspective c fov a n fr).mModelViewCached
        = c.mModelViewCached) ∧
    (Camera.getProjectionMatrix CameraPersp.calcProjection (Camera.setEyePoint c p)
        = Camera.getProjectionMatrix CameraPersp.calcProjection c ∧
     (Camera.setEyePoint c p).mProjectionCached = c.mProjectionCached) ∧
    (Camera.getProjectionMatrix CameraPersp.calcProjection (Camera.setViewDirection c d)
        = Camera.getProjectionMatrix CameraPersp.calcProjection c ∧
     (Camera.setViewDirection c d).mProjectionCached = c.mProjectionCached) ∧
    (Camera.getProjectionMatrix CameraPersp.calcProjection (Camera.setOrientation c q)
        = Camera.getProjectionMatrix CameraPersp.calcProjection c ∧
     (Camera.setOrientation c q).mProjectionCached = c.mProjectionCached) ∧
    (Camera.getProjectionMatrix CameraPersp.calcProjection (Camera.setWorldUp c alignQ u)
        = Camera.getProjectionMatrix CameraPersp.calcProjection c ∧
     (Camera.setWorldUp c alignQ u).mProjectionCached = c.mProjectionCached) ∧
    (Camera.getProjectionMatrix CameraPersp.calcProjection (Camera.lookAt c alignQ t)
        = Camera.getProjectionMatrix CameraPersp.calcProjection c ∧
     (Camera.lookAt c alignQ t).mProjectionCached = c.mProjectionCached) ∧
    (Camera.getProjectionMatrix CameraPersp.calcProjection (Camera.lookAt2 c alignQ e1 t1)
        = Camera.getProjectionMatrix CameraPersp.calcProjection c ∧
     (Camera.lookAt2 c alignQ e1 t1).mProjectionCached = c.mProjectionCached) ∧
    (Camera.getProjectionMatrix CameraPersp.calcProjection (Camera.lookAt3 c alignQ e1 t1 u1)
        = Camera.getProjectionMatrix CameraPersp.calcProjection c ∧
     (Camera.lookAt3 c alignQ e1 t1 u1).mProjectionCached = c.mProjectionCached) := by
  refine ⟨⟨?_, rfl⟩, ⟨?_, rfl⟩, ⟨?_, rfl⟩, ⟨?_, rfl⟩, ⟨?_, rfl⟩, ⟨?_, rfl⟩,
    ⟨?_, rfl⟩, ⟨?_, rfl⟩⟩
  · by_cases h : c.mModelViewCached <;>
      simp [Camera.getViewMatrix, CameraPersp.setPerspective, Camera.calcViewMatrix, h]
  all_goals
    by_cases h : c.mProjectionCached <;>
      simp [Camera.getProjectionMatrix, Camera.setEyePoint, Camera.setViewDirection,
        Camera.setOrientation, Camera.setWorldUp, Camera.lookAt, Camera.lookAt2,
        Camera.lookAt3, CameraPersp.calcProjection, h]

/-- C8: every far-plane corner is the matching near-plane corner with its
offset from the eye scaled by farClip / nearClip, for any camera state and
any projection recomputation cp, whenever the near clip read by the
queries is nonzero. -/
theorem c8_far_corners_are_scaled_near_corners (cp : Camera → Camera) (c : Camera)
    (hn : (Camera.calcMatrices cp c).mNearClip ≠ 0) :
    (Camera.getFarClipCoordinates cp c).topLeft
      = (Camera.calcMatrices cp c).mEyePoint
        + ((Camera.calcMatrices cp c).mFarClip / (Camera.calcMatrices cp c).mNearClip)
          • ((Camera.getNearClipCoordinates cp c).topLeft
              - (Camera.calcMatrices cp c).mEyePoint) ∧
    (Camera.getFarClipCoordinates cp c).topRight
      = (Camera.calcMatrices cp c).mEyePoint
        + ((Camera.calcMatrices cp c).mFarClip / (Camera.calcMatrices cp c).mNearClip)
          • ((Camera.getNearClipCoordinates cp c).topRight
              - (Camera.calcMatrices cp c).mEyePoint) ∧
    (Camera.getFarClipCoordinates cp c).bottomLeft
      = (Camera.calcMatrices cp c).mEyePoint
        + ((Camera.calcMatrices cp c).mFarClip / (Camera.calcMatrices cp c).mNearClip)
          • ((Camera.getNearClipCoordinates cp c).bottomLeft
              - (Camera.calcMatrices cp c).mEyePoint) ∧
    (Camera.getFarClipCoordinates cp c).bottomRight
      = (Camera.calcMatrices cp c).mEyePoint
        + ((Camera.calcMatrices cp c).mFarClip / (Camera.calcMatrices cp c).mNearClip)
          • ((Camera.getNearClipCoordinates cp c).bottomRight
              - (Camera.calcMatrices cp c).mEyePoint) := by
  refine ⟨?_, ?_, ?_, ?_⟩ <;>
  · rw [Vec3.eq_iff_comps]
    refine ⟨?_, ?_, ?_⟩ <;>
    · simp only [Camera.getFarClipCoordinates, Camera.getNearClipCoordinates,
        Vec3.add_x, Vec3.add_y, Vec3.add_z, Vec3.sub_x, Vec3.sub_y, Vec3.sub_z,
        Vec3.smul_x, Vec3.smul_y, Vec3.smul_z]
      field_simp
      ring

/-- Witness for C8 at the fully cached concrete camera cam0 (near clip 1)
with the identity projection recomputation. -/
theorem c8_far_corners_are_scaled_near_corners_witness :
    (Camera.calcMatrices id cam0).mNearClip ≠ 0 ∧
    ((Camera.getFarClipCoordinates id cam0).topLeft
      = (Camera.calcMatrices id cam0).mEyePoint
        + ((Camera.calcMatrices id cam0).mFarClip / (Camera.calcMatrices id cam0).mNearClip)
          • ((Camera.getNearClipCoordinates id cam0).topLeft
              - (Camera.calcMatrices id cam0).mEyePoint) ∧
     (Camera.getFarClipCoordinates id cam0).topRight
      = (Camera.calcMatrices id cam0).mEyePoint
        + ((Camera.calcMatrices id cam0).mFarClip / (Camera.calcMatrices id cam0).mNearClip)
          • ((Camera.getNearClipCoordinates id cam0).topRight
              - (Camera.calcMatrices id cam0).mEyePoint) ∧
     (Camera.getFarClipCoordinates id cam0).bottomLeft
      = (Camera.calcMatrices id cam0).mEyePoint
        + ((Camera.calcMatrices id cam0).mFarClip / (Camera.calcMatrices id cam0).mNearClip)
          • ((Camera.getNearClipCoordinates id cam0).bottomLeft
              - (Camera.calcMatrices id cam0).mEyePoint) ∧
     (Camera.getFarClipCoordinates id cam0).bottomRight
      = (Camera.calcMatrices id cam0).mEyePoint
        + ((Camera.calcMatrices id cam0).mFarClip / (Camera.calcMatrices id cam0).mNearClip)
          • ((Camera.getNearClipCoordinates id cam0).bottomRight
              - (Camera.calcMatrices id cam0).mEyePoint)) :=
  ⟨by norm_num [Camera.calcMatrices, cam0],
   c8_far_corners_are_scaled_near_corners id cam0
     (by norm_num [Camera.calcMatrices, cam0])⟩

theorem CameraStereo.calcViewMatrix_cam_eyePoint (s : CameraStereo) :
    (CameraStereo.calcViewMatrix s).cam.mEyePoint = s.cam.mEyePoint := by
  simp [CameraStereo.calcViewMatrix, Camera.calcViewMatrix]

theorem CameraStereo.calcProjection_cam_eyePoint (s : CameraStereo) :
    (CameraStereo.calcProjection s).cam.mEyePoint = s.cam.mEyePoint := by
  simp [CameraStereo.calcProjection, CameraPersp.calcProjection]

theorem CameraStereo.calcMatrices_cam_eyePoint (s : CameraStereo) :
    (CameraStereo.calcMatrices s).cam.mEyePoint = s.cam.mEyePoint := by
  by_cases h1 : s.cam.mModelViewCached <;>
  by_cases h2 : s.cam.mProjectionCached <;>
  by_cases h3 : (CameraStereo.calcViewMatrix s).cam.mProjectionCached <;>
    simp [CameraStereo.calcMatrices, h1, h2, h3,
      CameraStereo.calcViewMatrix_cam_eyePoint, CameraStereo.calcProjection_cam_eyePoint]

/-- C9: ray generation is not stereo-aware: for every stereo camera in
stereo mode and every input, the inherited generateRay returns a ray whose
origin is the unshifted eye point; in particular, whenever the shifted eye
point differs from the unshifted one, the ray does not start at the
shifted point returned by getEyePointShifted. -/
theorem c9_generate_ray_ignores_eye_shift (s : CameraStereo) (u v pa : ℝ)
    (_hst : s.mIsStereo = true) :
    (CameraStereo.generateRay s u v pa).origin = s.cam.mEyePoint ∧
    (CameraStereo.getEyePointShifted s ≠ s.cam.mEyePoint →
      (CameraStereo.generateRay s u v pa).origin ≠ CameraStereo.getEyePointShifted s) := by
  have h : (CameraStereo.generateRay s u v pa).origin = s.cam.mEyePoint := by
    simp [CameraStereo.generateRay, CameraStereo.calcMatrices_cam_eyePoint]
  exact ⟨h, fun hne heq => hne ((h.symm.trans heq).symm)⟩

/-- Witness for C9 at the concrete left-eye stereo camera st0 (stereo mode
on, eye separation 1). -/
theorem c9_generate_ray_ignores_eye_shift_witness :
    st0.mIsStereo = true ∧
    ((CameraStereo.generateRay st0 0 0 1).origin = st0.cam.mEyePoint ∧
     (CameraStereo.getEyePointShifted st0 ≠ st0.cam.mEyePoint →
       (CameraStereo.generateRay st0 0 0 1).origin
         ≠ CameraStereo.getEyePointShifted st0)) :=
  ⟨rfl, c9_generate_ray_ignores_eye_shift st0 0 0 1 rfl⟩

theorem normalize_unit_x : normalize ⟨1, 0, 0⟩ = (⟨1, 0, 0⟩ : Vec3) := by
  rw [Vec3.eq_iff_comps]
  norm_num [normalize, Vec3.length, dot, Real.sqrt_one]

theorem rotate_y90_of_neg_z :
    quatRotate ⟨Real.sqrt 2 * 0.5, 0, 1 / Real.sqrt 2, 0⟩ ⟨0, 0, -1⟩
      = (⟨-1, 0, 0⟩ : Vec3) := by
  have h2 : Real.sqrt 2 * Real.sqrt 2 = 2 := Real.mul_self_sqrt (by norm_num)
  have h2p : Real.sqrt 2 ≠ 0 := (Real.sqrt_pos.mpr (by norm_num)).ne'
  rw [Vec3.eq_iff_comps]
  refine ⟨?_, ?_, ?_⟩ <;>
    dsimp only [quatRotate, cross, Vec3.add_x, Vec3.add_y, Vec3.add_z,
      Vec3.smul_x, Vec3.smul_y, Vec3.smul_z] <;>
    field_simp <;>
    nlinarith [h2, h2p]

/-- C1: the two pose representations do NOT stay mutually consistent.  The
setOrientation half holds by construction, but setViewDirection stores the
rotation taking the new view direction onto (0,0,-1) — the inverse of what
the invariant needs.  Evaluated at the failing input d = (1,0,0): rotating
(0,0,-1) by the stored orientation gives (-1,0,0), not normalize(d). -/
theorem c1_set_view_direction_breaks_invariant :
    (∀ (c : Camera) (q : Quat),
        (Camera.setOrientation c q).mViewDirection
          = quatRotate (quatNormalize q) ⟨0, 0, -1⟩) ∧
    normalize ⟨1, 0, 0⟩ = (⟨1, 0, 0⟩ : Vec3) ∧
    quatRotate (Camera.setViewDirection cam0 ⟨1, 0, 0⟩).mOrientation ⟨0, 0, -1⟩
      = (⟨-1, 0, 0⟩ : Vec3) ∧
    (⟨-1, 0, 0⟩ : Vec3) ≠ (⟨1, 0, 0⟩ : Vec3) := by
  refine ⟨fun c q => rfl, normalize_unit_x, ?_, by norm_num [Vec3.eq_iff_comps]⟩
  have horient : (Camera.setViewDirection cam0 ⟨1, 0, 0⟩).mOrientation
      = glmRotationBetween ⟨1, 0, 0⟩ ⟨0, 0, -1⟩ := by
    simp [Camera.setViewDirection, normalize_unit_x]
  rw [horient]
  have hq : glmRotationBetween ⟨1, 0, 0⟩ ⟨0, 0, -1⟩
      = ⟨Real.sqrt 2 * 0.5, 0, 1 / Real.sqrt 2, 0⟩ := by
    unfold glmRotationBetween
    rw [show dot ⟨1, 0, 0⟩ ⟨0, 0, -1⟩ = 0 from by norm_num [dot]]
    rw [if_neg (by norm_num), if_neg (by norm_num)]
    norm_num [cross]
  rw [hq]
  exact rotate_y90_of_neg_z

/-- CameraPersp::calcFraming changes only the eye point and (through
setEyePoint) the view cache flag; every other field survives. -/
theorem c7_calc_framing_main (c : Camera) (sp : Sphere)
    (hv : Vec3.length c.mViewDirection = 1)
    (hD : 0 ≤ max (sp.radius / Real.sin (toRadians (CameraPersp.getFovHorizontal c * 0.5)))
                  (sp.radius / Real.sin (toRadians (c.mFov * 0.5)))) :
    Vec3.length ((CameraPersp.calcFraming c sp).mEyePoint - sp.center)
      = max (sp.radius / Real.sin (toRadians (CameraPersp.getFovHorizontal c * 0.5)))
            (sp.radius / Real.sin (toRadians (c.mFov * 0.5))) ∧
    (CameraPersp.calcFraming c sp).mViewDirection = c.mViewDirection ∧
    (CameraPersp.calcFraming c sp).mOrientation = c.mOrientation ∧
    (CameraPersp.calcFraming c sp).mWorldUp = c.mWorldUp ∧
    (CameraPersp.calcFraming c sp).mCenterOfInterest = c.mCenterOfInterest ∧
    (CameraPersp.calcFraming c sp).mFov = c.mFov ∧
    (CameraPersp.calcFraming c sp).mAspect = c.mAspect ∧
    (CameraPersp.calcFraming c sp).mNearClip = c.mNearClip ∧
    (CameraPersp.calcFraming c sp).mFarClip = c.mFarClip ∧
    (CameraPersp.calcFraming c sp).mFrustumLeft = c.mFrustumLeft ∧
    (CameraPersp.calcFraming c sp).mFrustumRight = c.mFrustumRight ∧
    (CameraPersp.calcFraming c sp).mFrustumTop = c.mFrustumTop ∧
    (CameraPersp.calcFraming c sp).mFrustumBottom = c.mFrustumBottom ∧
    (CameraPersp.calcFraming c sp).mLensShift = c.mLensShift ∧
    (CameraPersp.calcFraming c sp).mU = c.mU ∧
    (CameraPersp.calcFraming c sp).mV = c.mV ∧
    (CameraPersp.calcFraming c sp).mW = c.mW ∧
    (CameraPersp.calcFraming c sp).mViewMatrix = c.mViewMatrix ∧
    (CameraPersp.calcFraming c sp).mProjectionMatrix = c.mProjectionMatrix ∧
    (CameraPersp.calcFraming c sp).mInverseProjectionMatrix = c.mInverseProjectionMatrix ∧
    (CameraPersp.calcFraming c sp).mProjectionCached = c.mProjectionCached ∧
    (CameraPersp.calcFraming c sp).mInverseModelViewCached = c.mInverseModelViewCached ∧
    (CameraPersp.calcFraming c sp).mModelViewCached = false := by
  have hdv : c.mViewDirection.x * c.mViewDirection.x
      + c.mViewDirection.y * c.mViewDirection.y
      + c.mViewDirection.z * c.mViewDirection.z = 1 := by
    have h1 : dot c.mViewDirection c.mViewDirection = 1 := by
      have h0 : (0 : ℝ) ≤ dot c.mViewDirection c.mViewDirection := by
        unfold dot
        nlinarith [sq_nonneg c.mViewDirection.x, sq_nonneg c.mViewDirection.y,
          sq_nonneg c.mViewDirection.z]
      have := hv
      unfold Vec3.length at this
      nlinarith [Real.sq_sqrt h0, this]
    simpa [dot] using h1
  refine ⟨?_, rfl, rfl, rfl, rfl, rfl, rfl, rfl, rfl, rfl, rfl, rfl, rfl, rfl,
    rfl, rfl, rfl, rfl, rfl, rfl, rfl, rfl, rfl⟩
  have hE : (CameraPersp.calcFraming c sp).mEyePoint
      = sp.center
        - (max (sp.radius / Real.sin (toRadians (CameraPersp.getFovHorizontal c * 0.5)))
               (sp.radius / Real.sin (toRadians (c.mFov * 0.5)))) • c.mViewDirection := rfl
  rw [hE, Vec3.length]
  have hdot : dot
      ((sp.center
        - (max (sp.radius / Real.sin (toRadians (CameraPersp.getFovHorizontal c * 0.5)))
               (sp.radius / Real.sin (toRadians (c.mFov * 0.5)))) • c.mViewDirection)
        - sp.center)
      ((sp.center
        - (max (sp.radius / Real.sin (toRadians (CameraPersp.getFovHorizontal c * 0.5)))
               (sp.radius / Real.sin (toRadians (c.mFov * 0.5)))) • c.mViewDirection)
        - sp.center)
      = (max (sp.radius / Real.sin (toRadians (CameraPersp.getFovHorizontal c * 0.5)))
             (sp.radius / Real.sin (toRadians (c.mFov * 0.5)))) ^ 2 := by
    simp only [dot, Vec3.sub_x, Vec3.sub_y, Vec3.sub_z,
      Vec3.smul_x, Vec3.smul_y, Vec3.smul_z]
    linear_combination
      (max (sp.radius / Real.sin (toRadians (CameraPersp.getFovHorizontal c * 0.5)))
           (sp.radius / Real.sin (toRadians (c.mFov * 0.5)))) ^ 2 * hdv
  rw [hdot, Real.sqrt_sq hD]

/-- Counterexample to C7 as stated: calcFraming goes through setEyePoint,
which clears the view cache flag, so on a camera whose view cache is valid
a field other than the eye point changes. -/
theorem c7_calc_framing_counterexample :
    (CameraPersp.calcFraming cam0 ⟨⟨0, 0, 0⟩, 0⟩).mModelViewCached
      ≠ cam0.mModelViewCached := by
  simp [CameraPersp.calcFraming, Camera.setEyePoint, cam0]

theorem cam90_hfov : CameraPersp.getFovHorizontal cam90 = 90 := by
  have hfov : cam90.mFov = 90 := rfl
  have hasp : cam90.mAspect = 1 := rfl
  unfold CameraPersp.getFovHorizontal
  rw [hfov, hasp]
  unfold toDegrees toRadians
  rw [show (90 : ℝ) * Real.pi / 180 * 0.5 = Real.pi / 4 by ring]
  rw [Real.tan_pi_div_four, mul_one, Real.arctan_one]
  field_simp
  ring

theorem cam90_sin_half_hfov :
    Real.sin (toRadians (CameraPersp.getFovHorizontal cam90 * 0.5))
      = Real.sqrt 2 / 2 := by
  rw [cam90_hfov]
  unfold toRadians
  rw [show (90 : ℝ) * 0.5 * Real.pi / 180 = Real.pi / 4 by ring]
  exact Real.sin_pi_div_four

theorem cam90_sin_half_vfov :
    Real.sin (toRadians (cam90.mFov * 0.5)) = Real.sqrt 2 / 2 := by
  have hfov : cam90.mFov = 90 := rfl
  rw [hfov]
  unfold toRadians
  rw [show (90 : ℝ) * 0.5 * Real.pi / 180 = Real.pi / 4 by ring]
  exact Real.sin_pi_div_four

/-- Witness for C7 at the concrete camera cam90 (90-degree FOV, aspect 1,
unit view direction) framing the unit sphere at the origin. -/
theorem c7_calc_framing_witness :
    (Vec3.length cam90.mViewDirection = 1 ∧
     0 ≤ max (sph1.radius / Real.sin (toRadians (CameraPersp.getFovHorizontal cam90 * 0.5)))
             (sph1.radius / Real.sin (toRadians (cam90.mFov * 0.5)))) ∧
    Vec3.length ((CameraPersp.calcFraming cam90 sph1).mEyePoint - sph1.center)
      = max (sph1.radius / Real.sin (toRadians (CameraPersp.getFovHorizontal cam90 * 0.5)))
            (sph1.radius / Real.sin (toRadians (cam90.mFov * 0.5))) ∧
    (CameraPersp.calcFraming cam90 sph1).mViewDirection = cam90.mViewDirection := by
  have hv : Vec3.length cam90.mViewDirection = 1 := by
    have : cam90.mViewDirection = (⟨0, 0, -1⟩ : Vec3) := rfl
    rw [this]
    norm_num [Vec3.length, dot, Real.sqrt_one]
  have hD : 0 ≤ max (sph1.radius / Real.sin (toRadians (CameraPersp.getFovHorizontal cam90 * 0.5)))
                    (sph1.radius / Real.sin (toRadians (cam90.mFov * 0.5))) := by
    rw [cam90_sin_half_hfov, cam90_sin_half_vfov]
    have hr : sph1.radius = 1 := rfl
    rw [hr]
    positivity
  exact ⟨⟨hv, hD⟩, (c7_calc_framing_main cam90 sph1 hv hD).1,
    (c7_calc_framing_main cam90 sph1 hv hD).2.1⟩

end

end Cinder
